import Mathlib

/-!
Shallow embedding of the sequencer-example-l2 rollup core:
the account ledger (src/state.rs), the proof generator and batch
aggregator (src/prover.rs) and transaction recovery (src/transaction.rs).

Machine integers (`u64`) are modelled as `Nat`; the two unchecked
additions in the source (`*prev_nonce + 1` and
`*destination_balance += transfer_amount`) are taken with an explicit
`% 2^64`, matching release-mode wrapping semantics.  A Rust panic
(`expect`, index out of bounds, arithmetic overflow of `usize`) is
modelled as `Option.none`.  Cryptographic commitments are modelled as
their raw serialized content (`List Nat`), so `commit` is the canonical
encoding the `RawCommitmentBuilder` would hash; signature recovery is
abstracted to the recovered address carried by the signature.
-/

namespace SeqL2

/-- Wrapping modulus of `u64` arithmetic, `2 ^ 64`. -/
def u64Mod : Nat := 18446744073709551616

/-- Ethereum addresses (`ethers::abi::Address`), modelled as naturals with
their linear order (the `BTreeMap` key order). -/
abbrev Address := Nat

/-- Struct `Account { balance: Amount, nonce: Nonce }` from src/state.rs. -/
structure Account where
  balance : Nat
  nonce : Nat
deriving DecidableEq

/-- Rust `derive(Default)` for `Account`: zero balance, zero nonce. -/
instance : Inhabited Account := ⟨{ balance := 0, nonce := 0 }⟩

/-- A `BTreeMap<Address, Account>` is modelled as an association list kept
sorted by strictly increasing key. -/
abbrev AccountMap := List (Address × Account)

/-- Lookup `BTreeMap::get`: find the value stored at a key. -/
def mapGet (m : AccountMap) (a : Address) : Option Account :=
  match m with
  | [] => none
  | (k, v) :: rest => if a = k then some v else mapGet rest a

/-- Insertion `BTreeMap::insert` (also the write-back of `get_mut` and
`entry(..).or_default()`): insert or replace, keeping keys sorted. -/
def mapInsert (m : AccountMap) (a : Address) (v : Account) : AccountMap :=
  match m with
  | [] => [(a, v)]
  | (k, w) :: rest =>
    if a < k then (a, v) :: (k, w) :: rest
    else if a = k then (a, v) :: rest
    else (k, w) :: mapInsert rest a v

/-- The `BTreeMap` representation invariant: keys strictly increasing. -/
def sortedKeys (m : AccountMap) : Prop :=
  m.Pairwise (fun p q => p.1 < q.1)

/-- Struct `RollupVM(VmId)` from src/lib.rs: a wrapper around the VM id. -/
structure RollupVM where
  id : Nat
deriving DecidableEq

/-- A commitment (`commit::Commitment<_>`), modelled as the raw serialized
content that the hash would be computed over. -/
abbrev Commitment := List Nat

/-- Struct `State` from src/state.rs: accounts map, optional commitment to the most
recent transaction NMT, optional previous state commitment, and the VM. -/
structure State where
  accounts : AccountMap
  nmt_comm : Option Commitment
  prev_state_commitment : Option Commitment
  vm : RollupVM
deriving DecidableEq

/-- Decidable equality for `Except`, used to evaluate `BatchProof.generate`
results on concrete inputs. -/
instance {ε α : Type} [DecidableEq ε] [DecidableEq α] :
    DecidableEq (Except ε α) := fun x y =>
  match x, y with
  | Except.error a, Except.error b =>
    if h : a = b then Decidable.isTrue (congrArg Except.error h)
    else Decidable.isFalse (fun hh => h (by injection hh))
  | Except.ok a, Except.ok b =>
    if h : a = b then Decidable.isTrue (congrArg Except.ok h)
    else Decidable.isFalse (fun hh => h (by injection hh))
  | Except.error _, Except.ok _ =>
    Decidable.isFalse (fun hh => Except.noConfusion hh)
  | Except.ok _, Except.error _ =>
    Decidable.isFalse (fun hh => Except.noConfusion hh)

/-- Rust `Option::iter().collect::<Vec<_>>()`: zero- or one-element list. -/
def optionCommitmentList : Option Commitment → List Commitment
  | none => []
  | some c => [c]

/-- The `serde_json` serialization of the accounts `BTreeMap`: the entries in
the map's (sorted) iteration order, each as address, balance, nonce. -/
def encodeAccountsJson : AccountMap → List Nat
  | [] => []
  | (a, acct) :: rest => a :: acct.balance :: acct.nonce :: encodeAccountsJson rest

/-- Length-prefixed flat encoding of a list of commitments
(an `array_field` of the commitment builder). -/
def encodeCommitmentList : List Commitment → List Nat
  | [] => []
  | c :: rest => c.length :: c ++ encodeCommitmentList rest

/-- Impl `Committable for State`: the commitment binds, in order, the
`block_hash` array field (the optional NMT commitment), the
`prev_state_commitment` array field, the serialized accounts, and the VM id. -/
def State.commit (s : State) : Commitment :=
  let blockField := encodeCommitmentList (optionCommitmentList s.nmt_comm)
  let prevField := encodeCommitmentList (optionCommitmentList s.prev_state_commitment)
  let accJson := encodeAccountsJson s.accounts
  0 :: blockField.length :: blockField
    ++ 1 :: prevField.length :: prevField
    ++ 2 :: accJson.length :: accJson
    ++ [3, s.vm.id]

/-- Constructor `State::from_initial_balances`: seed accounts with the given balances and
zero nonces. -/
def State.from_initial_balances (initial_balances : List (Address × Nat))
    (vm : RollupVM) : State :=
  { accounts :=
      initial_balances.foldl
        (fun m p => mapInsert m p.1 { balance := p.2, nonce := 0 }) [],
    nmt_comm := none,
    prev_state_commitment := none,
    vm := vm }

/-- Enum `RollupError` (declared in src/error.rs, absent from the sources; its
variants and fields are exactly those used at the call sites in
src/state.rs and src/transaction.rs). -/
inductive RollupError where
  | SignatureError
  | InsufficientBalance (address : Address)
  | InvalidNonce (address : Address) (expected : Nat) (actual : Nat)
deriving DecidableEq

/-- Struct `Transaction { amount, destination, nonce }` from src/transaction.rs. -/
structure Transaction where
  amount : Nat
  destination : Address
  nonce : Nat
deriving DecidableEq

/-- Struct `SignedTransaction`: a transaction plus an ECDSA signature.  The external
signature scheme is abstracted: a signature carries the address recovery
returns for it, or nothing when recovery fails. -/
structure SignedTransaction where
  transaction : Transaction
  signature : Option Address
deriving DecidableEq

/-- Method `SignedTransaction::recover`: recover the signer address from the
signature, or fail with `SignatureError`. -/
def SignedTransaction.recover (txn : SignedTransaction) :
    Except RollupError Address :=
  match txn.signature with
  | some addr => Except.ok addr
  | none => Except.error RollupError.SignatureError

/-- Method `State::apply_transaction`.  The Rust function takes `&mut self` and
returns `Result<(), RollupError>`; here it returns the resulting state
together with the optional error.  Every error path returns before any
mutation, so the errors are paired with the unchanged input state.  The two
unchecked `u64` additions wrap modulo `2 ^ 64`. -/
def State.apply_transaction (s : State) (transaction : SignedTransaction) :
    State × Option RollupError :=
  match transaction.recover with
  | Except.error e => (s, some e)
  | Except.ok sender =>
    let destination := transaction.transaction.destination
    let next_nonce := transaction.transaction.nonce
    let transfer_amount := transaction.transaction.amount
    match mapGet s.accounts sender with
    | none => (s, some (RollupError.InsufficientBalance sender))
    | some acct =>
      if next_nonce ≠ (acct.nonce + 1) % u64Mod then
        (s, some (RollupError.InvalidNonce sender ((acct.nonce + 1) % u64Mod)
          next_nonce))
      else if transfer_amount > acct.balance then
        (s, some (RollupError.InsufficientBalance sender))
      else
        let accounts1 := mapInsert s.accounts sender
          { balance := acct.balance - transfer_amount, nonce := next_nonce }
        let destAccount := (mapGet accounts1 destination).getD default
        let accounts2 := mapInsert accounts1 destination
          { destAccount with
            balance := (destAccount.balance + transfer_amount) % u64Mod }
        ({ s with accounts := accounts2 }, none)

/-- Method `State::get_balance`: balance of an address, 0 when unknown. -/
def State.get_balance (s : State) (address : Address) : Nat :=
  ((mapGet s.accounts address).map Account.balance).getD 0

/-- Method `State::get_nonce`: nonce of an address, 0 when unknown. -/
def State.get_nonce (s : State) (address : Address) : Nat :=
  ((mapGet s.accounts address).map Account.nonce).getD 0

/-- Struct `NMTRoot` from the sequencer crate: carries the root hash of the
namespaced merkle tree (`nmt_root.root()`). -/
structure NMTRoot where
  root : Nat
deriving DecidableEq

/-- Impl `Committable::commit` for `NMTRoot`: its commitment, modelled as a tagged
encoding of its content. -/
def NMTRoot.commit (r : NMTRoot) : Commitment := [4, r.root]

/-- A transaction stored in a namespaced-merkle-tree leaf.  `as_vm` of the
sequencer crate returns the decoded rollup transaction when the leaf belongs
to the VM's namespace and decodes; it is abstracted by the namespace id of the
leaf and the decoded payload (`none` when malformed). -/
structure NmtTx where
  vmId : Nat
  payload : Option SignedTransaction

/-- Method `txn.as_vm(&vm)`: the leaf's transaction for this VM, when the namespace
matches and the payload decodes. -/
def NmtTx.as_vm (t : NmtTx) (vm : RollupVM) : Option SignedTransaction :=
  if t.vmId = vm.id then t.payload else none

/-- Struct `NamespaceProofType` (sequencer crate): exposes the ordered namespace
leaves and a verification against a block root and a namespace id.  The
external NMT verification is abstracted as the predicate `valid`. -/
structure NamespaceProofType where
  leaves : List NmtTx
  valid : Nat → Nat → Bool

/-- Method `namespace_proof.get_namespace_leaves()`. -/
def NamespaceProofType.get_namespace_leaves (p : NamespaceProofType) :
    List NmtTx := p.leaves

/-- Method `namespace_proof.verify(root, vm_id)`: `true` when both layers of the
`Result` returned by the external verifier are `Ok`. -/
def NamespaceProofType.verify (p : NamespaceProofType) (root : Nat)
    (id : Nat) : Bool := p.valid root id

/-- Struct `Proof { block, old_state, new_state }` from src/prover.rs. -/
structure Proof where
  block : Commitment
  old_state : Commitment
  new_state : Commitment
deriving DecidableEq

/-- Method `Proof::generate` from src/prover.rs: verifies the namespace proof
against the NMT root and the VM id, then builds the mock proof.  The two
`expect` calls on verification failure abort the program, modelled as
`none`. -/
def Proof.generate (nmt_comm : NMTRoot) (state_commitment : Commitment)
    (previous_state_commitment : Commitment)
    (namespace_proof : NamespaceProofType) (rollup_vm : RollupVM) :
    Option Proof :=
  if namespace_proof.verify nmt_comm.root rollup_vm.id then
    some { block := nmt_comm.commit,
           old_state := previous_state_commitment,
           new_state := state_commitment }
  else
    none

/-- The loop body of `State::execute_block` over the namespace leaves: each
leaf is decoded with `as_vm` (a malformed leaf is logged and skipped) and
applied with `apply_transaction` (a failing transaction is logged and
skipped; the error paths of `apply_transaction` leave the state unchanged). -/
def applyBestEffort (s : State) (transactions : List NmtTx) : State :=
  transactions.foldl
    (fun st txn =>
      match txn.as_vm st.vm with
      | some rollup_txn => (st.apply_transaction rollup_txn).1
      | none => st)
    s

/-- Method `State::execute_block` from src/state.rs: snapshot the commitment, apply
the namespace transactions best-effort, update the chain pointers
(`nmt_comm` to the block root's commitment, `prev_state_commitment` to the
snapshot), and generate the proof from the snapshot to the new commitment.
A panic inside `Proof::generate` is propagated as `none`. -/
def State.execute_block (s : State) (nmt_root : NMTRoot)
    (namespace_proof : NamespaceProofType) : Option (State × Proof) :=
  let state_commitment := s.commit
  let s1 := applyBestEffort s namespace_proof.get_namespace_leaves
  let s2 := { s1 with
    nmt_comm := some nmt_root.commit,
    prev_state_commitment := some state_commitment }
  match s2.prev_state_commitment with
  | some prev =>
    (Proof.generate nmt_root s2.commit prev namespace_proof s2.vm).map
      (fun pf => (s2, pf))
  | none => none

/-- Enum `ProofError` from src/prover.rs.  Its display string reads: proofs out of
order at `position`, the previous proof ends in `new_state` but the next
proof starts in `old_state`. -/
inductive ProofError where
  | OutOfOrder (position : Nat) (new_state : Commitment)
      (old_state : Commitment)
deriving DecidableEq

/-- Struct `BatchProof { first_block, last_block, old_state, new_state }` from
src/prover.rs. -/
structure BatchProof where
  first_block : Commitment
  last_block : Commitment
  old_state : Commitment
  new_state : Commitment
deriving DecidableEq

/-- The loop of `BatchProof::generate`: scan adjacent pairs in order and
report the first pair whose states do not chain, together with its index and
the two proofs of the pair. -/
def firstMismatch : List Proof → Option (Nat × Proof × Proof)
  | p :: q :: rest =>
    if p.new_state = q.old_state then
      (firstMismatch (q :: rest)).map (fun r => (r.1 + 1, r.2))
    else
      some (0, p, q)
  | _ => none

/-- Method `BatchProof::generate` from src/prover.rs.  On an empty slice the Rust
loop bound `proofs.len() - 1` underflows on `usize` and `proofs[0]` is
indexed out of bounds, a panic, modelled as `none`.  On a non-empty slice
every index the function uses is in bounds; the first adjacent pair with
`proofs[i].new_state != proofs[i + 1].old_state` yields `OutOfOrder` carrying
the index, `proofs[i].new_state` and `proofs[i].old_state` (the source fills
the `old_state` field from `proofs[i]`, not `proofs[i + 1]`). -/
def BatchProof.generate (proofs : List Proof) :
    Option (Except ProofError BatchProof) :=
  match proofs with
  | [] => none
  | p0 :: rest =>
    match firstMismatch (p0 :: rest) with
    | some (i, pi, _) =>
      some (Except.error (ProofError.OutOfOrder i pi.new_state pi.old_state))
    | none =>
      let plast := (p0 :: rest).getLast (List.cons_ne_nil p0 rest)
      some (Except.ok
        { first_block := p0.block,
          last_block := plast.block,
          old_state := p0.old_state,
          new_state := plast.new_state })

/-- Sum of all account balances of the ledger map. -/
def sumBalances : AccountMap → Nat
  | [] => 0
  | (_, acct) :: rest => acct.balance + sumBalances rest

/-- A sequence of `apply_transaction` calls on the same `&mut State`: each
call leaves the state of a failed application unchanged and threads the
state of a successful one. -/
def applySeq (s : State) (txns : List SignedTransaction) : State :=
  txns.foldl (fun st txn => (st.apply_transaction txn).1) s

/-- A `BTreeMap` built by inserting the given entries in the given order into
the empty map. -/
def buildMap (entries : List (Address × Account)) : AccountMap :=
  entries.foldl (fun m p => mapInsert m p.1 p.2) []

/-- Example VM used by concrete evaluations. -/
def exVM : RollupVM := { id := 1 }

/-- Example ledger: address 1 holds 100 at nonce 0, address 2 holds 50 at
nonce 5. -/
def exState : State :=
  { accounts := [(1, { balance := 100, nonce := 0 }),
                 (2, { balance := 50, nonce := 5 })],
    nmt_comm := none,
    prev_state_commitment := none,
    vm := exVM }

/-- Example ledger whose destination account balance sits at `u64::MAX`. -/
def exMaxState : State :=
  { accounts := [(1, { balance := 100, nonce := 0 }),
                 (2, { balance := 18446744073709551615, nonce := 0 })],
    nmt_comm := none,
    prev_state_commitment := none,
    vm := exVM }

/-- Example ledger whose sender account nonce sits at `u64::MAX`. -/
def exMaxNonceState : State :=
  { accounts := [(1, { balance := 100, nonce := 18446744073709551615 })],
    nmt_comm := none,
    prev_state_commitment := none,
    vm := exVM }

/-- Example signed transfer: 5 units from address 1 to address 2, nonce 1. -/
def exTransfer : SignedTransaction :=
  { transaction := { amount := 5, destination := 2, nonce := 1 },
    signature := some 1 }

/-- Example signed transfer whose nonce 0 matches the wrapping increment of
a sender nonce at `u64::MAX`. -/
def exWrapNonceTx : SignedTransaction :=
  { transaction := { amount := 5, destination := 2, nonce := 0 },
    signature := some 1 }

/-- Example signed transfer exceeding the sender's balance. -/
def exOverspend : SignedTransaction :=
  { transaction := { amount := 1000, destination := 2, nonce := 1 },
    signature := some 1 }

/-- Example NMT leaf carrying `exTransfer` in namespace 1. -/
def exGoodLeaf : NmtTx := { vmId := 1, payload := some exTransfer }

/-- Example NMT leaf in a foreign namespace. -/
def exForeignLeaf : NmtTx := { vmId := 2, payload := some exTransfer }

/-- Example malformed NMT leaf (payload does not decode). -/
def exMalformedLeaf : NmtTx := { vmId := 1, payload := none }

/-- Example NMT leaf whose transaction fails (overspend). -/
def exFailLeaf : NmtTx := { vmId := 1, payload := some exOverspend }

/-- Example namespace proof whose verification always succeeds. -/
def exNp : NamespaceProofType :=
  { leaves := [exGoodLeaf, exMalformedLeaf], valid := fun _ _ => true }

/-- Example namespace proof whose verification always fails. -/
def exNpBad : NamespaceProofType :=
  { leaves := [], valid := fun _ _ => false }

/-- Example per-block proofs for batch aggregation, with distinct
commitments: the chain from `exProofA` to `exProofB` is broken. -/
def exProofA : Proof :=
  { block := [10], old_state := [11], new_state := [12] }

/-- Second example per-block proof; its `old_state` differs from both fields
of `exProofA`. -/
def exProofB : Proof :=
  { block := [13], old_state := [14], new_state := [15] }

/-- Example per-block proof chaining from `exProofA`. -/
def exProofC : Proof :=
  { block := [13], old_state := [12], new_state := [15] }

theorem mapGet_mapInsert_self (m : AccountMap) (a : Address) (v : Account) :
    mapGet (mapInsert m a v) a = some v := by
  induction m with
  | nil => simp [mapInsert, mapGet]
  | cons p rest ih =>
    obtain ⟨k, w⟩ := p
    simp only [mapInsert]
    split_ifs with h1 h2
    · simp [mapGet]
    · simp [mapGet, h2]
    · simp [mapGet, h2, ih]

theorem mapGet_mapInsert_ne (m : AccountMap) (a b : Address) (v : Account)
    (h : b ≠ a) : mapGet (mapInsert m a v) b = mapGet m b := by
  induction m with
  | nil => simp [mapInsert, mapGet, h]
  | cons p rest ih =>
    obtain ⟨k, w⟩ := p
    simp only [mapInsert]
    split_ifs with h1 h2
    · simp [mapGet, h]
    · subst h2
      simp [mapGet, h]
    · by_cases hb : b = k
      · simp [mapGet, hb]
      · simp [mapGet, hb, ih]

theorem mem_mapInsert (m : AccountMap) (a : Address) (v : Account)
    (q : Address × Account) (hq : q ∈ mapInsert m a v) :
    q = (a, v) ∨ q ∈ m := by
  induction m with
  | nil =>
    simp only [mapInsert, List.mem_singleton] at hq
    exact Or.inl hq
  | cons p rest ih =>
    obtain ⟨k, w⟩ := p
    simp only [mapInsert] at hq
    split_ifs at hq with h1 h2
    · rcases List.mem_cons.mp hq with h | h
      · exact Or.inl h
      · exact Or.inr h
    · rcases List.mem_cons.mp hq with h | h
      · exact Or.inl h
      · exact Or.inr (List.mem_cons_of_mem _ h)
    · rcases List.mem_cons.mp hq with h | h
      · exact Or.inr (List.mem_cons.mpr (Or.inl h))
      · rcases ih h with h' | h'
        · exact Or.inl h'
        · exact Or.inr (List.mem_cons_of_mem _ h')

theorem mapGet_eq_none (m : AccountMap) (a : Address)
    (h : ∀ p ∈ m, a ≠ p.1) : mapGet m a = none := by
  induction m with
  | nil => rfl
  | cons p rest ih =>
    obtain ⟨k, w⟩ := p
    have hk : a ≠ k := h (k, w) (List.mem_cons_self _ _)
    simp only [mapGet, hk, if_false]
    exact ih (fun q hq => h q (List.mem_cons_of_mem _ hq))

theorem sortedKeys_mapInsert (m : AccountMap) (a : Address) (v : Account)
    (h : sortedKeys m) : sortedKeys (mapInsert m a v) := by
  induction m with
  | nil => simp [mapInsert, sortedKeys]
  | cons p rest ih =>
    obtain ⟨k, w⟩ := p
    rw [sortedKeys, List.pairwise_cons] at h
    obtain ⟨hhead, htail⟩ := h
    simp only [mapInsert]
    split_ifs with h1 h2
    · rw [sortedKeys, List.pairwise_cons]
      constructor
      · intro q hq
        rcases List.mem_cons.mp hq with h' | h'
        · subst h'; exact h1
        · exact lt_trans h1 (hhead q h')
      · rw [sortedKeys, List.pairwise_cons] at *
        exact ⟨hhead, htail⟩
    · subst h2
      rw [sortedKeys, List.pairwise_cons]
      exact ⟨hhead, htail⟩
    · have hka : k < a :=
        lt_of_le_of_ne (le_of_not_lt h1) (fun hh => h2 hh.symm)
      rw [sortedKeys, List.pairwise_cons]
      constructor
      · intro q hq
        rcases mem_mapInsert rest a v q hq with h' | h'
        · subst h'; exact hka
        · exact hhead q h'
      · exact ih htail

theorem sortedKeys_ext (m1 : AccountMap) :
    ∀ m2 : AccountMap, sortedKeys m1 → sortedKeys m2 →
      (∀ a, mapGet m1 a = mapGet m2 a) → m1 = m2 := by
  induction m1 with
  | nil =>
    intro m2 _ _ hext
    cases m2 with
    | nil => rfl
    | cons q t2 =>
      obtain ⟨k, v⟩ := q
      have h := hext k
      simp [mapGet] at h
  | cons p t1 ih =>
    intro m2 h1 h2 hext
    obtain ⟨k1, v1⟩ := p
    cases m2 with
    | nil =>
      have h := hext k1
      simp [mapGet] at h
    | cons q t2 =>
      obtain ⟨k2, v2⟩ := q
      rw [sortedKeys, List.pairwise_cons] at h1 h2
      obtain ⟨hh1, ht1⟩ := h1
      obtain ⟨hh2, ht2⟩ := h2
      have hk : k1 = k2 := by
        rcases Nat.lt_trichotomy k1 k2 with hlt | heq | hgt
        · have hn : mapGet t2 k1 = none :=
            mapGet_eq_none _ _ (fun r hr => by
              have h3 : k2 < r.1 := hh2 r hr
              exact Nat.ne_of_lt (lt_trans hlt h3))
          have h := hext k1
          simp [mapGet, Nat.ne_of_lt hlt, hn] at h
        · exact heq
        · have hn : mapGet t1 k2 = none :=
            mapGet_eq_none _ _ (fun r hr => by
              have h3 : k1 < r.1 := hh1 r hr
              exact Nat.ne_of_lt (lt_trans hgt h3))
          have h := hext k2
          simp [mapGet, Nat.ne_of_lt hgt, hn] at h
      subst hk
      have hv : v1 = v2 := by
        have h := hext k1
        simpa [mapGet] using h
      subst hv
      have hext2 : ∀ a, mapGet t1 a = mapGet t2 a := by
        intro a
        by_cases ha : a = k1
        · subst ha
          rw [mapGet_eq_none t1 a (fun r hr => by
              have h3 : a < r.1 := hh1 r hr
              exact Nat.ne_of_lt h3),
            mapGet_eq_none t2 a (fun r hr => by
              have h3 : a < r.1 := hh2 r hr
              exact Nat.ne_of_lt h3)]
        · have h := hext a
          simpa [mapGet, ha] using h
      exact congrArg (List.cons (k1, v1)) (ih t2 ht1 ht2 hext2)

theorem sortedKeys_foldl_mapInsert (l : List (Address × Account)) :
    ∀ m : AccountMap, sortedKeys m →
      sortedKeys (l.foldl (fun m p => mapInsert m p.1 p.2) m) := by
  induction l with
  | nil => intro m h; exact h
  | cons p t ih =>
    intro m h
    exact ih _ (sortedKeys_mapInsert m p.1 p.2 h)

theorem sortedKeys_buildMap (l : List (Address × Account)) :
    sortedKeys (buildMap l) :=
  sortedKeys_foldl_mapInsert l [] List.Pairwise.nil

theorem optBalance_getD (o : Option Account) :
    (o.map Account.balance).getD 0 = (o.getD default).balance := by
  cases o <;> rfl

theorem sumBalances_mapInsert (m : AccountMap) (a : Address) (v : Account)
    (h : sortedKeys m) :
    sumBalances (mapInsert m a v)
        + ((mapGet m a).map Account.balance).getD 0
      = sumBalances m + v.balance := by
  induction m with
  | nil => simp [mapInsert, sumBalances, mapGet]
  | cons p rest ih =>
    obtain ⟨k, w⟩ := p
    rw [sortedKeys, List.pairwise_cons] at h
    obtain ⟨hhead, htail⟩ := h
    simp only [mapInsert]
    split_ifs with h1 h2
    · have hn : mapGet rest a = none :=
        mapGet_eq_none _ _ (fun q hq => by
          have h3 : k < q.1 := hhead q hq
          exact Nat.ne_of_lt (lt_trans h1 h3))
      have ha : a ≠ k := Nat.ne_of_lt h1
      simp only [sumBalances, mapGet, ha, if_false, hn]
      simp
      omega
    · subst h2
      simp [sumBalances, mapGet]
      omega
    · have hstep := ih htail
      simp only [sumBalances, mapGet, h2, if_false]
      omega

theorem apply_transaction_fst_of_fail (s : State) (txn : SignedTransaction)
    (h : (s.apply_transaction txn).2 ≠ none) :
    (s.apply_transaction txn).1 = s := by
  unfold State.apply_transaction at h ⊢
  cases htx : txn.recover with
  | error e => simp [htx]
  | ok sender =>
    simp only [htx] at h ⊢
    cases hg : mapGet s.accounts sender with
    | none => simp [hg]
    | some acct =>
      simp only [hg] at h ⊢
      split_ifs at h ⊢
      · rfl
      · rfl
      · simp at h

theorem apply_transaction_eq (s : State) (txn : SignedTransaction)
    (sender : Address) (acct : Account)
    (hsig : txn.signature = some sender)
    (hacct : mapGet s.accounts sender = some acct) :
    s.apply_transaction txn =
      if txn.transaction.nonce ≠ (acct.nonce + 1) % u64Mod then
        (s, some (RollupError.InvalidNonce sender ((acct.nonce + 1) % u64Mod)
          txn.transaction.nonce))
      else if txn.transaction.amount > acct.balance then
        (s, some (RollupError.InsufficientBalance sender))
      else
        ({ s with accounts :=
            (mapInsert
              (mapInsert s.accounts sender
                { balance := acct.balance - txn.transaction.amount,
                  nonce := txn.transaction.nonce })
              txn.transaction.destination
              { balance :=
                  (((mapGet (mapInsert s.accounts sender
                      { balance := acct.balance - txn.transaction.amount,
                        nonce := txn.transaction.nonce })
                    txn.transaction.destination).getD default).balance
                    + txn.transaction.amount) % u64Mod,
                nonce :=
                  ((mapGet (mapInsert s.accounts sender
                      { balance := acct.balance - txn.transaction.amount,
                        nonce := txn.transaction.nonce })
                    txn.transaction.destination).getD default).nonce }) },
          none) := by
  unfold State.apply_transaction
  simp only [SignedTransaction.recover, hsig, hacct]

theorem apply_transaction_success_inv (s : State) (txn : SignedTransaction)
    (sender : Address) (acct : Account)
    (hsig : txn.signature = some sender)
    (hacct : mapGet s.accounts sender = some acct)
    (hsucc : (s.apply_transaction txn).2 = none) :
    txn.transaction.nonce = (acct.nonce + 1) % u64Mod
      ∧ txn.transaction.amount ≤ acct.balance := by
  rw [apply_transaction_eq s txn sender acct hsig hacct] at hsucc
  split_ifs at hsucc with h1 h2
  exact ⟨not_ne_iff.mp h1, Nat.not_lt.mp h2⟩

theorem apply_transaction_fst_of_no_account (s : State)
    (txn : SignedTransaction) (sender : Address)
    (hsig : txn.signature = some sender)
    (hg : mapGet s.accounts sender = none) :
    s.apply_transaction txn = (s, some (RollupError.InsufficientBalance sender)) := by
  unfold State.apply_transaction
  simp [SignedTransaction.recover, hsig, hg]

theorem apply_transaction_fst_of_bad_sig (s : State)
    (txn : SignedTransaction) (hsig : txn.signature = none) :
    s.apply_transaction txn = (s, some RollupError.SignatureError) := by
  unfold State.apply_transaction
  simp [SignedTransaction.recover, hsig]

theorem apply_transaction_fst_sorted (s : State) (txn : SignedTransaction)
    (h : sortedKeys s.accounts) :
    sortedKeys ((s.apply_transaction txn).1).accounts := by
  cases hsig : txn.signature with
  | none =>
    rw [apply_transaction_fst_of_bad_sig s txn hsig]
    exact h
  | some sender =>
    cases hg : mapGet s.accounts sender with
    | none =>
      rw [apply_transaction_fst_of_no_account s txn sender hsig hg]
      exact h
    | some acct =>
      rw [apply_transaction_eq s txn sender acct hsig hg]
      split_ifs
      · exact h
      · exact h
      · exact sortedKeys_mapInsert _ _ _ (sortedKeys_mapInsert _ _ _ h)

theorem sumBalances_apply_transaction (s : State) (txn : SignedTransaction)
    (h : sortedKeys s.accounts) :
    sumBalances ((s.apply_transaction txn).1).accounts % u64Mod
      = sumBalances s.accounts % u64Mod := by
  cases hsig : txn.signature with
  | none => rw [apply_transaction_fst_of_bad_sig s txn hsig]
  | some sender =>
    cases hg : mapGet s.accounts sender with
    | none => rw [apply_transaction_fst_of_no_account s txn sender hsig hg]
    | some acct =>
      rw [apply_transaction_eq s txn sender acct hsig hg]
      split_ifs with h1 h2
      · rfl
      · rfl
      · dsimp only
        have hb : txn.transaction.amount ≤ acct.balance := Nat.not_lt.mp h2
        have hs1 : sortedKeys (mapInsert s.accounts sender
            { balance := acct.balance - txn.transaction.amount,
              nonce := txn.transaction.nonce }) :=
          sortedKeys_mapInsert _ _ _ h
        have e1 := sumBalances_mapInsert s.accounts sender
          { balance := acct.balance - txn.transaction.amount,
            nonce := txn.transaction.nonce } h
        rw [hg] at e1
        simp only [Option.map_some', Option.getD_some] at e1
        have e2 := sumBalances_mapInsert
          (mapInsert s.accounts sender
            { balance := acct.balance - txn.transaction.amount,
              nonce := txn.transaction.nonce })
          txn.transaction.destination
          { balance := (((mapGet (mapInsert s.accounts sender
                { balance := acct.balance - txn.transaction.amount,
                  nonce := txn.transaction.nonce })
              txn.transaction.destination).getD default).balance
              + txn.transaction.amount) % u64Mod,
            nonce := ((mapGet (mapInsert s.accounts sender
                { balance := acct.balance - txn.transaction.amount,
                  nonce := txn.transaction.nonce })
              txn.transaction.destination).getD default).nonce }
          hs1
        rw [optBalance_getD] at e2
        dsimp only at e2
        unfold u64Mod at e2 ⊢
        omega

theorem sumBalances_applySeq (txns : List SignedTransaction) :
    ∀ s : State, sortedKeys s.accounts →
      sumBalances ((applySeq s txns).accounts) % u64Mod
        = sumBalances s.accounts % u64Mod := by
  induction txns with
  | nil => intro s _; rfl
  | cons t ts ih =>
    intro s h
    have hstep := sumBalances_apply_transaction s t h
    have hsort := apply_transaction_fst_sorted s t h
    have hfold : applySeq s (t :: ts) = applySeq ((s.apply_transaction t).1) ts :=
      rfl
    rw [hfold, ih _ hsort, hstep]

theorem optNonce_getD (o : Option Account) :
    (o.map Account.nonce).getD 0 = (o.getD default).nonce := by
  cases o <;> rfl

theorem apply_transaction_fst_vm (s : State) (txn : SignedTransaction) :
    ((s.apply_transaction txn).1).vm = s.vm := by
  cases hsig : txn.signature with
  | none => rw [apply_transaction_fst_of_bad_sig s txn hsig]
  | some sender =>
    cases hg : mapGet s.accounts sender with
    | none => rw [apply_transaction_fst_of_no_account s txn sender hsig hg]
    | some acct =>
      rw [apply_transaction_eq s txn sender acct hsig hg]
      split_ifs <;> rfl

theorem applyBestEffort_cons (s : State) (t : NmtTx) (ts : List NmtTx) :
    applyBestEffort s (t :: ts)
      = applyBestEffort
          (match t.as_vm s.vm with
           | some rollup_txn => (s.apply_transaction rollup_txn).1
           | none => s) ts := rfl

theorem applyBestEffort_vm (txns : List NmtTx) :
    ∀ s : State, (applyBestEffort s txns).vm = s.vm := by
  induction txns with
  | nil => intro s; rfl
  | cons t ts ih =>
    intro s
    rw [applyBestEffort_cons]
    cases hv : t.as_vm s.vm with
    | none => exact ih _
    | some rtx => exact (ih _).trans (apply_transaction_fst_vm s rtx)

/-- Claim C1: on a batch whose first adjacent pair of proofs does not chain
(and whose first proof's own `old_state` also differs from the second
proof's `old_state`), `BatchProof::generate` returns `OutOfOrder` at
position 0 carrying `proofs[0].new_state` and `proofs[0].old_state`; the
`old_state` field is not `proofs[1].old_state` as the claim (and the
error's own display text) state. -/
theorem claim_C1_out_of_order_old_state_field :
    BatchProof.generate [exProofA, exProofB]
      = some (Except.error
          (ProofError.OutOfOrder 0 exProofA.new_state exProofA.old_state))
    ∧ exProofA.old_state ≠ exProofB.old_state := by
  decide

/-- Claim C2 counterexample: with the sender's stored nonce at `u64::MAX`,
the wrapped computation of `*prev_nonce + 1` lets a transaction with nonce 0
succeed although 0 is not the mathematical `sender.nonce + 1`, so
`apply_transaction` does not succeed only when
`tx.nonce == sender.nonce + 1`. -/
theorem claim_C2_counterexample :
    exWrapNonceTx.signature = some 1
    ∧ mapGet exMaxNonceState.accounts 1
        = some { balance := 100, nonce := 18446744073709551615 }
    ∧ (exMaxNonceState.apply_transaction exWrapNonceTx).2 = none
    ∧ exWrapNonceTx.transaction.nonce ≠ 18446744073709551615 + 1 := by
  decide

/-- Claim C2 (amended): for a signed transaction recovering to a sender with
an account, `apply_transaction` succeeds only when `tx.nonce` equals the
wrapping u64 increment `(sender.nonce + 1) % 2^64`; when it differs, the
call fails with `InvalidNonce` carrying the sender, the wrapped expected
nonce and the actual nonce, and the returned state is exactly the state
before the call. -/
theorem claim_C2_nonce_check (s : State) (txn : SignedTransaction)
    (sender : Address) (acct : Account)
    (hsig : txn.signature = some sender)
    (hacct : mapGet s.accounts sender = some acct) :
    ((s.apply_transaction txn).2 = none →
      txn.transaction.nonce = (acct.nonce + 1) % u64Mod)
    ∧ (txn.transaction.nonce ≠ (acct.nonce + 1) % u64Mod →
      s.apply_transaction txn
        = (s, some (RollupError.InvalidNonce sender
            ((acct.nonce + 1) % u64Mod) txn.transaction.nonce))) := by
  constructor
  · intro hsucc
    exact (apply_transaction_success_inv s txn sender acct hsig hacct hsucc).1
  · intro hn
    rw [apply_transaction_eq s txn sender acct hsig hacct, if_pos hn]

theorem claim_C2_nonce_check_witness :
    exState.apply_transaction
        { transaction := { amount := 5, destination := 2, nonce := 7 },
          signature := some 1 }
      = (exState, some (RollupError.InvalidNonce 1 1 7)) := by
  have h := (claim_C2_nonce_check exState
    { transaction := { amount := 5, destination := 2, nonce := 7 },
      signature := some 1 }
    1 { balance := 100, nonce := 0 } rfl rfl).2 (by decide)
  rw [h]
  decide

/-- Claim C4: `apply_transaction` fails with `InsufficientBalance` naming
the recovered sender both when the sender has no account (whatever the
transaction) and when the sender's account exists, the nonce check passes,
and the transfer amount exceeds the sender's balance; in both failure cases
the returned state is exactly the state before the call. -/
theorem claim_C4_insufficient_balance (s : State) (txn : SignedTransaction)
    (sender : Address) (hsig : txn.signature = some sender) :
    (mapGet s.accounts sender = none →
      s.apply_transaction txn
        = (s, some (RollupError.InsufficientBalance sender)))
    ∧ (∀ acct, mapGet s.accounts sender = some acct →
      txn.transaction.nonce = (acct.nonce + 1) % u64Mod →
      acct.balance < txn.transaction.amount →
      s.apply_transaction txn
        = (s, some (RollupError.InsufficientBalance sender))) := by
  constructor
  · intro hg
    exact apply_transaction_fst_of_no_account s txn sender hsig hg
  · intro acct hg hn hb
    rw [apply_transaction_eq s txn sender acct hsig hg,
      if_neg (not_ne_iff.mpr hn), if_pos hb]

theorem claim_C4_insufficient_balance_witness :
    exState.apply_transaction
        { transaction := { amount := 5, destination := 2, nonce := 1 },
          signature := some 9 }
      = (exState, some (RollupError.InsufficientBalance 9))
    ∧ exState.apply_transaction exOverspend
      = (exState, some (RollupError.InsufficientBalance 1)) := by
  constructor
  · exact (claim_C4_insufficient_balance exState
      { transaction := { amount := 5, destination := 2, nonce := 1 },
        signature := some 9 } 9 rfl).1 (by decide)
  · exact (claim_C4_insufficient_balance exState exOverspend 1 rfl).2
      { balance := 100, nonce := 0 } (by decide) (by decide) (by decide)

/-- Claim C10: the credit of the destination is an unchecked u64 addition:
with the destination balance at `u64::MAX`, a successful transfer of 5
wraps the destination balance to `(balance + 5) % 2^64`, different from the
mathematical sum, while the sum of balances is conserved only modulo
`2^64`; likewise the nonce comparison computes `sender.nonce + 1` wrapping,
letting nonce 0 succeed against a stored nonce of `u64::MAX`. -/
theorem claim_C10_unchecked_u64_arithmetic :
    (exMaxState.get_balance 2 + 5 ≥ u64Mod
      ∧ (exMaxState.apply_transaction exTransfer).2 = none
      ∧ (exMaxState.apply_transaction exTransfer).1.get_balance 2
          = (exMaxState.get_balance 2 + 5) % u64Mod
      ∧ (exMaxState.apply_transaction exTransfer).1.get_balance 2
          ≠ exMaxState.get_balance 2 + 5
      ∧ sumBalances ((exMaxState.apply_transaction exTransfer).1).accounts
            % u64Mod
          = sumBalances exMaxState.accounts % u64Mod
      ∧ sumBalances ((exMaxState.apply_transaction exTransfer).1).accounts
          ≠ sumBalances exMaxState.accounts)
    ∧ ((exMaxNonceState.apply_transaction exWrapNonceTx).2 = none
      ∧ (18446744073709551615 + 1) % u64Mod = 0) := by
  decide

/-- Claim C3 counterexample: with the destination balance at `u64::MAX`,
a successful transfer of 5 does not increase the destination's balance by
the transfer amount — the unchecked credit wraps modulo `2^64`. -/
theorem claim_C3_counterexample :
    (exMaxState.apply_transaction exTransfer).2 = none
    ∧ (exMaxState.apply_transaction exTransfer).1.get_balance 2
        ≠ exMaxState.get_balance 2 + 5 := by
  decide

/-- Claim C3 (amended): when `apply_transaction` succeeds, the post state
equals the pre state with exactly these changes: the sender's balance is
decreased by the amount and its nonce set to the transaction nonce, the
destination's balance is increased by the amount modulo `2^64` (the credit
is a wrapping u64 addition), the destination account being created with
zero initial nonce if absent (its nonce is otherwise preserved), applied in
that order when destination and sender coincide; every other account and
the remaining state fields are unchanged. -/
theorem claim_C3_success_updates (s : State) (txn : SignedTransaction)
    (sender : Address) (acct : Account)
    (hsig : txn.signature = some sender)
    (hacct : mapGet s.accounts sender = some acct)
    (hsucc : (s.apply_transaction txn).2 = none) :
    (txn.transaction.destination ≠ sender →
      mapGet ((s.apply_transaction txn).1).accounts sender
          = some { balance := acct.balance - txn.transaction.amount,
                   nonce := txn.transaction.nonce }
        ∧ mapGet ((s.apply_transaction txn).1).accounts
            txn.transaction.destination
          = some { balance :=
                     (s.get_balance txn.transaction.destination
                       + txn.transaction.amount) % u64Mod,
                   nonce := s.get_nonce txn.transaction.destination })
    ∧ (txn.transaction.destination = sender →
      mapGet ((s.apply_transaction txn).1).accounts sender
        = some { balance :=
                   ((acct.balance - txn.transaction.amount)
                     + txn.transaction.amount) % u64Mod,
                 nonce := txn.transaction.nonce })
    ∧ (∀ addr, addr ≠ sender → addr ≠ txn.transaction.destination →
      mapGet ((s.apply_transaction txn).1).accounts addr
        = mapGet s.accounts addr)
    ∧ ((s.apply_transaction txn).1).nmt_comm = s.nmt_comm
    ∧ ((s.apply_transaction txn).1).prev_state_commitment
        = s.prev_state_commitment
    ∧ ((s.apply_transaction txn).1).vm = s.vm := by
  obtain ⟨hn, hb⟩ :=
    apply_transaction_success_inv s txn sender acct hsig hacct hsucc
  rw [apply_transaction_eq s txn sender acct hsig hacct,
    if_neg (not_ne_iff.mpr hn), if_neg (Nat.not_lt.mpr hb)]
  dsimp only
  refine ⟨?_, ?_, ?_, rfl, rfl, rfl⟩
  · intro hd
    constructor
    · rw [mapGet_mapInsert_ne _ _ _ _ (Ne.symm hd), mapGet_mapInsert_self]
    · rw [mapGet_mapInsert_self, mapGet_mapInsert_ne _ _ _ _ hd]
      simp only [State.get_balance, State.get_nonce, optBalance_getD,
        optNonce_getD]
  · intro hd
    rw [hd, mapGet_mapInsert_self, mapGet_mapInsert_self]
    rfl
  · intro addr ha hd
    rw [mapGet_mapInsert_ne _ _ _ _ hd, mapGet_mapInsert_ne _ _ _ _ ha]

theorem claim_C3_success_updates_witness :
    mapGet ((exState.apply_transaction exTransfer).1).accounts 2
      = some { balance := 55, nonce := 5 } := by
  have h := ((claim_C3_success_updates exState exTransfer 1
    { balance := 100, nonce := 0 } rfl rfl (by decide)).1 (by decide)).2
  exact h.trans (by decide)

/-- Claim C5 counterexample: a successfully applied transfer whose credit
wraps changes the mathematical sum of all balances, so the sum is not
invariant over every sequence of `apply_transaction` calls. -/
theorem claim_C5_counterexample :
    sumBalances ((applySeq exMaxState [exTransfer]).accounts)
      ≠ sumBalances exMaxState.accounts := by
  decide

/-- Claim C5 (amended): over any sequence of `apply_transaction` calls on a
ledger whose account map satisfies the `BTreeMap` invariant (including
self-transfers), the sum of all account balances is invariant modulo
`2^64`: each successful application conserves the total up to the wrapping
of the destination credit, and each failed application changes nothing. -/
theorem claim_C5_conservation_mod_u64 (s : State)
    (txns : List SignedTransaction) (h : sortedKeys s.accounts) :
    sumBalances ((applySeq s txns).accounts) % u64Mod
      = sumBalances s.accounts % u64Mod :=
  sumBalances_applySeq txns s h

theorem claim_C5_conservation_mod_u64_witness :
    sumBalances ((applySeq exMaxState [exTransfer, exWrapNonceTx]).accounts)
        % u64Mod
      = sumBalances exMaxState.accounts % u64Mod :=
  claim_C5_conservation_mod_u64 exMaxState [exTransfer, exWrapNonceTx]
    (by simp [exMaxState, sortedKeys])

/-- Claim C6: `commit` is a pure deterministic function of the logical
content of the ledger: any two states whose (canonically sorted) account
maps have equal lookups, with equal optional NMT commitment, equal optional
previous state commitment and equal VM, commit identically; and every
account map built by `BTreeMap` insertions, in any order, satisfies the
canonical sorted-keys invariant. -/
theorem claim_C6_commit_deterministic :
    (∀ s1 s2 : State, sortedKeys s1.accounts → sortedKeys s2.accounts →
      (∀ a, mapGet s1.accounts a = mapGet s2.accounts a) →
      s1.nmt_comm = s2.nmt_comm →
      s1.prev_state_commitment = s2.prev_state_commitment →
      s1.vm = s2.vm →
      s1.commit = s2.commit)
    ∧ (∀ entries : List (Address × Account), sortedKeys (buildMap entries)) := by
  constructor
  · intro s1 s2 h1 h2 hacc hn hp hv
    have heq : s1.accounts = s2.accounts := sortedKeys_ext _ _ h1 h2 hacc
    unfold State.commit
    rw [heq, hn, hp, hv]
  · exact sortedKeys_buildMap

theorem claim_C6_commit_deterministic_witness :
    State.commit
        { accounts := buildMap [(2, { balance := 50, nonce := 5 }),
            (1, { balance := 100, nonce := 0 })],
          nmt_comm := none, prev_state_commitment := none, vm := exVM }
      = State.commit
          { accounts := buildMap [(1, { balance := 100, nonce := 0 }),
              (2, { balance := 50, nonce := 5 })],
            nmt_comm := none, prev_state_commitment := none, vm := exVM } := by
  refine claim_C6_commit_deterministic.1 _ _
    (claim_C6_commit_deterministic.2 _) (claim_C6_commit_deterministic.2 _)
    ?_ rfl rfl rfl
  intro a
  exact congrArg (fun m => mapGet m a)
    (by decide :
      buildMap [(2, { balance := 50, nonce := 5 }),
          (1, { balance := 100, nonce := 0 })]
        = buildMap [(1, { balance := 100, nonce := 0 }),
            (2, { balance := 50, nonce := 5 })])

/-- Claim C7: under a verifying namespace proof, `execute_block` applies
the block's namespace transactions in order with best-effort semantics (a
leaf outside the namespace or malformed is skipped; a transaction whose
application fails is skipped with the ledger unchanged; a successful one
threads the new ledger), then sets the NMT commitment to the block root's
commitment and the previous-state commitment to the pre-block commitment,
and returns a proof binding the block-root commitment, the pre-block
commitment and the post-block commitment. -/
theorem claim_C7_execute_block_best_effort :
    (∀ (s : State) (nmt_root : NMTRoot) (np : NamespaceProofType),
      np.valid nmt_root.root s.vm.id = true →
      ∃ s2 pf, s.execute_block nmt_root np = some (s2, pf)
        ∧ s2.accounts = (applyBestEffort s np.get_namespace_leaves).accounts
        ∧ s2.nmt_comm = some nmt_root.commit
        ∧ s2.prev_state_commitment = some s.commit
        ∧ s2.vm = s.vm
        ∧ pf.block = nmt_root.commit
        ∧ pf.old_state = s.commit
        ∧ pf.new_state = s2.commit)
    ∧ (∀ (s : State) (t : NmtTx) (ts : List NmtTx),
      t.as_vm s.vm = none →
      applyBestEffort s (t :: ts) = applyBestEffort s ts)
    ∧ (∀ (s : State) (t : NmtTx) (ts : List NmtTx)
        (rtx : SignedTransaction) (e : RollupError),
      t.as_vm s.vm = some rtx →
      (s.apply_transaction rtx).2 = some e →
      applyBestEffort s (t :: ts) = applyBestEffort s ts)
    ∧ (∀ (s s2 : State) (t : NmtTx) (ts : List NmtTx)
        (rtx : SignedTransaction),
      t.as_vm s.vm = some rtx →
      s.apply_transaction rtx = (s2, none) →
      applyBestEffort s (t :: ts) = applyBestEffort s2 ts) := by
  refine ⟨?_, ?_, ?_, ?_⟩
  · intro s nmt_root np h
    have hvm : (applyBestEffort s np.get_namespace_leaves).vm = s.vm :=
      applyBestEffort_vm _ _
    refine ⟨{ applyBestEffort s np.get_namespace_leaves with
              nmt_comm := some nmt_root.commit,
              prev_state_commitment := some s.commit },
            { block := nmt_root.commit, old_state := s.commit,
              new_state := State.commit
                { applyBestEffort s np.get_namespace_leaves with
                  nmt_comm := some nmt_root.commit,
                  prev_state_commitment := some s.commit } },
            ?_, rfl, rfl, rfl, hvm, rfl, rfl, rfl⟩
    unfold State.execute_block Proof.generate
    dsimp only
    simp only [NamespaceProofType.verify, hvm, h, if_true]
    rfl
  · intro s t ts ht
    rw [applyBestEffort_cons, ht]
  · intro s t ts rtx e ht he
    rw [applyBestEffort_cons, ht]
    show applyBestEffort ((s.apply_transaction rtx).1) ts
      = applyBestEffort s ts
    rw [apply_transaction_fst_of_fail s rtx
      (fun hnone => Option.noConfusion (he.symm.trans hnone))]
  · intro s s2 t ts rtx ht happly
    rw [applyBestEffort_cons, ht]
    show applyBestEffort ((s.apply_transaction rtx).1) ts
      = applyBestEffort s2 ts
    rw [happly]

theorem claim_C7_execute_block_best_effort_witness :
    (exState.execute_block { root := 9 } exNp).isSome = true
    ∧ applyBestEffort exState [exForeignLeaf] = applyBestEffort exState []
    ∧ applyBestEffort exState [exFailLeaf] = applyBestEffort exState []
    ∧ applyBestEffort exState [exGoodLeaf]
        = applyBestEffort ((exState.apply_transaction exTransfer).1) [] := by
  refine ⟨?_, ?_, ?_, ?_⟩
  · obtain ⟨s2, pf, heq, -⟩ :=
      claim_C7_execute_block_best_effort.1 exState { root := 9 } exNp rfl
    rw [heq]
    rfl
  · exact claim_C7_execute_block_best_effort.2.1 exState exForeignLeaf [] rfl
  · exact claim_C7_execute_block_best_effort.2.2.1 exState exFailLeaf []
      exOverspend (RollupError.InsufficientBalance 1) rfl (by decide)
  · exact claim_C7_execute_block_best_effort.2.2.2 exState
      ((exState.apply_transaction exTransfer).1) exGoodLeaf [] exTransfer
      rfl (by decide)

/-- Claim C8: `Proof::generate` verifies the namespace inclusion proof
against the block root and the VM id before constructing anything: when
verification fails it aborts (modelled `none`) and returns no proof; a
proof, binding the block commitment and the two state commitments, is
returned exactly when verification succeeds. -/
theorem claim_C8_generate_verify_gate (nmt_comm : NMTRoot)
    (state_commitment previous_state_commitment : Commitment)
    (namespace_proof : NamespaceProofType) (rollup_vm : RollupVM) :
    (namespace_proof.verify nmt_comm.root rollup_vm.id = false →
      Proof.generate nmt_comm state_commitment previous_state_commitment
        namespace_proof rollup_vm = none)
    ∧ (namespace_proof.verify nmt_comm.root rollup_vm.id = true →
      Proof.generate nmt_comm state_commitment previous_state_commitment
        namespace_proof rollup_vm
        = some { block := nmt_comm.commit,
                 old_state := previous_state_commitment,
                 new_state := state_commitment })
    ∧ (∀ pf, Proof.generate nmt_comm state_commitment
          previous_state_commitment namespace_proof rollup_vm = some pf →
      namespace_proof.verify nmt_comm.root rollup_vm.id = true) := by
  refine ⟨?_, ?_, ?_⟩
  · intro h
    unfold Proof.generate
    rw [h]
    rfl
  · intro h
    unfold Proof.generate
    rw [h]
    rfl
  · intro pf h
    cases hv : namespace_proof.verify nmt_comm.root rollup_vm.id with
    | true => rfl
    | false =>
      unfold Proof.generate at h
      rw [hv] at h
      exact Option.noConfusion h

theorem claim_C8_generate_verify_gate_witness :
    Proof.generate { root := 3 } [1] [2] exNpBad exVM = none
    ∧ Proof.generate { root := 3 } [1] [2] exNp exVM
      = some { block := NMTRoot.commit { root := 3 }, old_state := [2],
               new_state := [1] } :=
  ⟨(claim_C8_generate_verify_gate { root := 3 } [1] [2] exNpBad exVM).1 rfl,
   (claim_C8_generate_verify_gate { root := 3 } [1] [2] exNp exVM).2.1 rfl⟩

theorem BatchProof.generate_cons (p0 : Proof) (rest : List Proof) :
    BatchProof.generate (p0 :: rest)
      = match firstMismatch (p0 :: rest) with
        | some (i, pi, _) =>
          some (Except.error
            (ProofError.OutOfOrder i pi.new_state pi.old_state))
        | none =>
          some (Except.ok
            { first_block := p0.block,
              last_block :=
                ((p0 :: rest).getLast (List.cons_ne_nil p0 rest)).block,
              old_state := p0.old_state,
              new_state :=
                ((p0 :: rest).getLast (List.cons_ne_nil p0 rest)).new_state }) :=
  rfl

/-- Claim C9: `BatchProof::generate` on the empty slice panics (the loop
bound `proofs.len() - 1` underflows on `usize` and `proofs[0]` is indexed
out of bounds), modelled as `none`; on any non-empty slice every index used
is in bounds and the function is total, returning a value. -/
theorem claim_C9_empty_panics_nonempty_total :
    BatchProof.generate [] = none
    ∧ (∀ proofs : List Proof, proofs ≠ [] →
      ∃ r, BatchProof.generate proofs = some r) := by
  constructor
  · rfl
  · intro proofs hne
    cases proofs with
    | nil => exact absurd rfl hne
    | cons p0 rest =>
      cases hfm : firstMismatch (p0 :: rest) with
      | none =>
        refine ⟨Except.ok
          { first_block := p0.block,
            last_block :=
              ((p0 :: rest).getLast (List.cons_ne_nil p0 rest)).block,
            old_state := p0.old_state,
            new_state :=
              ((p0 :: rest).getLast (List.cons_ne_nil p0 rest)).new_state },
          ?_⟩
        rw [BatchProof.generate_cons, hfm]
      | some v =>
        obtain ⟨i, pi, qi⟩ := v
        refine ⟨Except.error
          (ProofError.OutOfOrder i pi.new_state pi.old_state), ?_⟩
        rw [BatchProof.generate_cons, hfm]

theorem claim_C9_empty_panics_nonempty_total_witness :
    BatchProof.generate [] = none
    ∧ (BatchProof.generate [exProofA, exProofC]).isSome = true := by
  refine ⟨claim_C9_empty_panics_nonempty_total.1, ?_⟩
  obtain ⟨r, hr⟩ := claim_C9_empty_panics_nonempty_total.2
    [exProofA, exProofC] (List.cons_ne_nil exProofA [exProofC])
  rw [hr]
  rfl

end SeqL2
